import Mathlib

/-!
Verification development for the bni-nodes gridding module
(src/gridding/grid_kaiser_PyMOD.cpp).  The binding layer in src is
embedded directly; the convolution engine it includes
(bni/gridding/gridding.cpp) is not in src and is modelled from the
spec where the doc comments say so.
-/

namespace BniGrid

/-- Complex sample value, modelled as a pair of rationals (re, im). -/
abbrev Cplx : Type := ℚ × ℚ

/-- Scalar multiplication of a complex value by a real scalar. -/
def csmul (r : ℚ) (z : Cplx) : Cplx := (r * z.1, r * z.2)

/-- Modelled from the spec: fixed kernel support radius, a design constant
of the kernel evaluator in bni/gridding/gridding.cpp (not in src). -/
def kernelRadius : ℚ := 3 / 2

/-- Modelled from the spec: Kaiser-Bessel shape parameter of the kernel
evaluator in bni/gridding/gridding.cpp (not in src). -/
def kbBeta : ℚ := 2

/-- Truncated power series of the modified Bessel function I0, taken on the
squared argument: i0sq s approximates I0 at the square root of s. -/
def i0sq (s : ℚ) : ℚ :=
  (List.range 6).foldl (fun acc k => acc + (s / 4) ^ k / ((Nat.factorial k : ℚ)) ^ 2) 0

/-- Modelled from the spec: one-dimensional Kaiser-Bessel window evaluation,
zero outside the support radius (the kernel evaluator of
bni/gridding/gridding.cpp is not in src).  It depends on the distance only
through its square. -/
def K (d : ℚ) : ℚ :=
  if d ^ 2 < kernelRadius ^ 2 then
    i0sq (kbBeta ^ 2 * (1 - d ^ 2 / kernelRadius ^ 2))
  else 0

/-- Modelled from the spec: conversion of a normalized coordinate to the
output grid index space using the per-axis spacing (shared by grid and
degrid; the mapping code of bni/gridding/gridding.cpp is not in src). -/
def mapIdx (m : ℕ) (d : ℚ) (c : ℚ) : ℚ := (c * d + 1 / 2) * m

/-- Predicate for a cell index lying inside the output grid bounds. -/
def inBounds (nx ny : ℕ) (c : ℤ × ℤ) : Prop :=
  0 ≤ c.1 ∧ c.1 < (nx : ℤ) ∧ 0 ≤ c.2 ∧ c.2 < (ny : ℤ)

instance (nx ny : ℕ) (c : ℤ × ℤ) : Decidable (inBounds nx ny c) := by
  unfold inBounds; infer_instance

/-- Separable kernel weight a sample at normalized coordinates (cx, cy)
assigns to grid cell c; zero for cells outside the grid bounds (skipped,
not wrapped, not clamped).  Shared by the scatter and gather loops. -/
def cellWeight (nx ny : ℕ) (dx dy : ℚ) (cx cy : ℚ) (c : ℤ × ℤ) : ℚ :=
  if inBounds nx ny c then
    K ((c.1 : ℚ) - mapIdx nx dx cx) * K ((c.2 : ℚ) - mapIdx ny dy cy)
  else 0

/-- One non-uniform sample: coordinates, complex value, density weight. -/
structure Sample where
  cx : ℚ
  cy : ℚ
  val : Cplx
  w : ℚ

/-- Contribution of one sample to one grid cell: data times weight times
separable kernel value, zero outside the bounds. -/
def contrib (nx ny : ℕ) (dx dy : ℚ) (s : Sample) (c : ℤ × ℤ) : Cplx :=
  csmul (s.w * cellWeight nx ny dx dy s.cx s.cy c) s.val

/-- Modelled from the spec: scatter of a single sample onto a grid
accumulator (the scatter loop of bni/gridding/gridding.cpp is not in src). -/
def scatterOne (nx ny : ℕ) (dx dy : ℚ) (g : ℤ × ℤ → Cplx) (s : Sample) : ℤ × ℤ → Cplx :=
  fun c => g c + contrib nx ny dx dy s c

/-- Modelled from the spec: the full scatter loop, accumulating every sample
into a zero-initialized grid. -/
def scatterAll (nx ny : ℕ) (dx dy : ℚ) (samples : List Sample) : ℤ × ℤ → Cplx :=
  samples.foldl (scatterOne nx ny dx dy) (fun _ => 0)

/-- Row-major enumeration of all in-bounds cell indices of an nx by ny grid. -/
def cellList (nx ny : ℕ) : List (ℤ × ℤ) :=
  (List.range nx).flatMap (fun i => (List.range ny).map (fun j => ((i : ℤ), (j : ℤ))))

/-- Modelled from the spec: the gather loop of degrid, summing
kernel-weighted grid values over the bounded neighborhood; no density
weighting appears (the gather loop of bni/gridding/gridding.cpp is not
in src). -/
def gatherOne (nx ny : ℕ) (dx dy : ℚ) (g : ℤ × ℤ → Cplx) (cx cy : ℚ) : Cplx :=
  (cellList nx ny).foldl (fun acc c => acc + csmul (cellWeight nx ny dx dy cx cy c) (g c)) 0

theorem csmul_zero_left (z : Cplx) : csmul 0 z = 0 := by
  simp [csmul]

theorem scatterAll_foldl (nx ny : ℕ) (dx dy : ℚ) (samples : List Sample)
    (g : ℤ × ℤ → Cplx) (c : ℤ × ℤ) :
    (samples.foldl (scatterOne nx ny dx dy) g) c =
      g c + (samples.map (fun s => contrib nx ny dx dy s c)).sum := by
  induction samples generalizing g with
  | nil => simp
  | cons s t ih =>
      simp only [List.foldl_cons, List.map_cons, List.sum_cons, ih, scatterOne, add_assoc]

theorem scatterAll_eq_sum (nx ny : ℕ) (dx dy : ℚ) (samples : List Sample) (c : ℤ × ℤ) :
    scatterAll nx ny dx dy samples c =
      (samples.map (fun s => contrib nx ny dx dy s c)).sum := by
  rw [scatterAll, scatterAll_foldl]
  exact zero_add _

theorem scatterAll_single (nx ny : ℕ) (dx dy : ℚ) (s : Sample) (c : ℤ × ℤ) :
    scatterAll nx ny dx dy [s] c = contrib nx ny dx dy s c := by
  rw [scatterAll_eq_sum]
  simp

/-- Fuel-driven binary exponent search: for an input at least one, counts
halvings until the value drops below two. -/
def exp2FloorAux : ℕ → ℚ → ℤ
  | 0, _ => 0
  | fuel + 1, a => if a < 2 then 0 else exp2FloorAux fuel (a / 2) + 1

/-- Floor of the base-two logarithm of a positive rational, with enough fuel
for every double-precision magnitude. -/
def exp2Floor (a : ℚ) : ℤ :=
  if 1 ≤ a then exp2FloorAux 1200 a else -(exp2FloorAux 1200 (1 / a)) - 1

/-- Round a rational to the nearest integer, ties to even. -/
def roundTiesToEven (x : ℚ) : ℤ :=
  if x - ⌊x⌋ < 1 / 2 then ⌊x⌋
  else if (1 / 2 : ℚ) < x - ⌊x⌋ then ⌊x⌋ + 1
  else if ⌊x⌋ % 2 = 0 then ⌊x⌋ else ⌊x⌋ + 1

/-- Round a positive rational to 24 binary digits of precision,
round-to-nearest ties-to-even. -/
def f32pos (a : ℚ) : ℚ :=
  ((roundTiesToEven (a * 2 ^ ((23 : ℤ) - exp2Floor a)) : ℚ)) / 2 ^ ((23 : ℤ) - exp2Floor a)

/-- Model of the C narrowing conversion from double to float at line 57 of
the binding: round-to-nearest-even at single precision (24 significand
bits; the normal range is modelled, which the claims do not exceed). -/
def f32round (q : ℚ) : ℚ :=
  if q < 0 then -f32pos (-q) else if q = 0 then 0 else f32pos q

/-- Multi-dimensional array as the binding sees it: a dimensions vector and
a flat data buffer. -/
structure PyArray (α : Type) where
  dims : List ℕ
  data : List α

/-- Error taxonomy of the engine preconditions described by the spec. -/
inductive GridError where
  | shapeMismatch
  | invalidSpacing
  | invalidConfig

/-- Coordinate sample count of a coordinate buffer: the product of its
dimensions after the leading dimension axis. -/
def sampleCount (crds : PyArray ℚ) : ℕ := (crds.dims.drop 1).prod

/-- Assemble the per-sample records from the flat buffers, reading the
coordinate buffer with the dimension-major layout of the spec. -/
def mkSamples (n : ℕ) (crdData : List ℚ) (vals : List Cplx) (ws : List ℚ) : List Sample :=
  (List.range n).map (fun i => ⟨crdData.getD i 0, crdData.getD (n + i) 0,
    vals.getD i 0, ws.getD i 0⟩)

/-- Modelled from the spec: the engine entry grid2 of
bni/gridding/gridding.cpp (not in src).  It checks the sample-count
agreement and the positivity of the spacings before any write, then runs
the scatter loop over a zero-initialized grid and materializes it. -/
def grid2 (data : PyArray Cplx) (crds : PyArray ℚ) (weights : PyArray ℚ)
    (nx ny : ℕ) (dx dy : ℚ) : Except GridError (List Cplx) :=
  if sampleCount crds = data.data.length ∧ data.data.length = weights.data.length then
    if 0 < dx ∧ 0 < dy then
      Except.ok ((cellList nx ny).map
        (scatterAll nx ny dx dy (mkSamples (sampleCount crds) crds.data data.data weights.data)))
    else Except.error GridError.invalidSpacing
  else Except.error GridError.shapeMismatch

/-- Conversion of an int64 output dimension entry by the as_ULONG cast of
the binding (two's-complement reinterpretation modulo 2^64). -/
def int64AsULong (v : ℤ) : ℕ := (v % (2 ^ 64 : ℤ)).toNat

/-- Dimensions of the output array allocated by the binding for grid:
outdim.size() axes whose sizes are the as_ULONG entries of outdim. -/
def gridAllocDims (outdim : List ℤ) : List ℕ := outdim.map int64AsULong

/-- Embedding of the grid binding (lines 43 to 60 of
grid_kaiser_PyMOD.cpp): allocate the output with the dimensions of outdim,
narrow dx and dy to single precision, and run the engine. -/
def grid (crds : PyArray ℚ) (data : PyArray Cplx) (weights : PyArray ℚ)
    (outdim : List ℤ) (dx dy : ℚ) : Except GridError (PyArray Cplx) :=
  let dims := gridAllocDims outdim
  (grid2 data crds weights (dims.getD 0 0) (dims.getD 1 0)
      (f32round dx) (f32round dy)).map (fun buf => ⟨dims, buf⟩)

/-- Modelled from the spec: the per-axis spacings the rolloff computation
uses, depending on the isotropic field-of-view mode selector. -/
def isoSpacing (nx ny : ℕ) (isofov : ℤ) : ℚ × ℚ :=
  if isofov = 1 then (max (nx : ℚ) (ny : ℚ) / nx, max (nx : ℚ) (ny : ℚ) / ny)
  else (1, 1)

/-- Modelled from the spec: the engine entry rolloff2 of
bni/gridding/gridding.cpp (not in src).  Unsupported isofov modes are
rejected as an invalid configuration; supported modes produce the kernel
self-response image by scattering a unit-weight, unit-value sample at the
grid center. -/
def rolloff2 (nx ny : ℕ) (isofov : ℤ) : Except GridError (List Cplx) :=
  if isofov = 0 ∨ isofov = 1 then
    Except.ok ((cellList nx ny).map
      (scatterAll nx ny (isoSpacing nx ny isofov).1 (isoSpacing nx ny isofov).2
        [⟨0, 0, (1, 0), 1⟩]))
  else Except.error GridError.invalidConfig

/-- Conversion of the long isofov argument by the int32 cast at line 73 of
the binding: two's-complement wrap into the signed 32-bit range. -/
def longAsInt32 (v : ℤ) : ℤ := (v + 2 ^ 31) % 2 ^ 32 - 2 ^ 31

/-- Embedding of the rolloff binding (lines 62 to 76 of
grid_kaiser_PyMOD.cpp): the long isofov argument is narrowed to a 32-bit
integer before the engine sees it. -/
def rolloff (data : PyArray Cplx) (outdim : List ℤ) (isofov : ℤ) :
    Except GridError (PyArray Cplx) :=
  let dims := gridAllocDims outdim
  (rolloff2 (dims.getD 0 0) (dims.getD 1 0) (longAsInt32 isofov)).map
    (fun buf => ⟨dims, buf⟩)

/-- View of a flat grid buffer as a cell-indexed function, zero outside the
stored range, using the row-major layout of the allocation. -/
def gridFn (g : PyArray Cplx) : ℤ × ℤ → Cplx :=
  fun c =>
    if 0 ≤ c.1 ∧ 0 ≤ c.2 then g.data.getD (c.1.toNat * g.dims.getD 1 0 + c.2.toNat) 0
    else 0

/-- Modelled from the spec: the engine entry degrid2 of
bni/gridding/gridding.cpp (not in src).  One gather per coordinate sample;
the signature takes no weight buffer at all. -/
def degrid2 (g : PyArray Cplx) (crds : PyArray ℚ) : List Cplx :=
  (List.range (sampleCount crds)).map (fun i =>
    gatherOne (g.dims.getD 0 0) (g.dims.getD 1 0) 1 1 (gridFn g)
      (crds.data.getD i 0) (crds.data.getD (sampleCount crds + i) 0))

/-- Embedding of the degrid binding (lines 78 to 94 of
grid_kaiser_PyMOD.cpp): the output dimensions are the coordinate buffer
dimensions with the first entry erased. -/
def degrid (crds : PyArray ℚ) (g : PyArray Cplx) : PyArray Cplx :=
  ⟨crds.dims.drop 1, degrid2 g crds⟩

/-- C8: the one-dimensional kernel evaluation is an even function: for every
distance d, K d equals K of minus d. -/
theorem kernel_even (d : ℚ) : K d = K (-d) := by
  simp only [K, neg_sq]

/-- C9: grid is linear in its sample set: scattering a list of samples
equals the elementwise sum of scattering each sample alone into a
zero-initialized grid of the same dimensions. -/
theorem grid_linear_in_samples (nx ny : ℕ) (dx dy : ℚ) (samples : List Sample) (c : ℤ × ℤ) :
    scatterAll nx ny dx dy samples c =
      (samples.map (fun s => scatterAll nx ny dx dy [s] c)).sum := by
  rw [scatterAll_eq_sum]
  simp only [scatterAll_single]

theorem contrib_eq_zero_of_notInBounds (nx ny : ℕ) (dx dy : ℚ) (s : Sample)
    (c : ℤ × ℤ) (h : ¬inBounds nx ny c) : contrib nx ny dx dy s c = 0 := by
  simp [contrib, cellWeight, h, csmul]

/-- The kernel footprint of a sample lies entirely outside the grid: along
some axis the mapped index is at least the support radius away from every
in-bounds cell index. -/
def farOutside (nx ny : ℕ) (dx dy : ℚ) (s : Sample) : Prop :=
  (mapIdx nx dx s.cx ≤ -kernelRadius ∨ (nx : ℚ) - 1 + kernelRadius ≤ mapIdx nx dx s.cx) ∨
  (mapIdx ny dy s.cy ≤ -kernelRadius ∨ (ny : ℚ) - 1 + kernelRadius ≤ mapIdx ny dy s.cy)

instance (nx ny : ℕ) (dx dy : ℚ) (s : Sample) : Decidable (farOutside nx ny dx dy s) := by
  unfold farOutside; infer_instance

theorem K_eq_zero_of_far (d : ℚ) (h : kernelRadius ≤ |d|) : K d = 0 := by
  have h2 : kernelRadius ^ 2 ≤ d ^ 2 := by
    have h3 := pow_le_pow_left₀ (by norm_num [kernelRadius]) h 2
    rwa [sq_abs] at h3
  simp [K, not_lt.mpr h2]

theorem foldl_add_map (f : ℤ × ℤ → Cplx) (l : List (ℤ × ℤ)) (a : Cplx) :
    l.foldl (fun acc c => acc + f c) a = a + (l.map f).sum := by
  induction l generalizing a with
  | nil => simp
  | cons c t ih => simp [ih, add_assoc]

theorem gatherOne_eq_sum (nx ny : ℕ) (dx dy : ℚ) (g : ℤ × ℤ → Cplx) (cx cy : ℚ) :
    gatherOne nx ny dx dy g cx cy =
      ((cellList nx ny).map
        (fun c => csmul (cellWeight nx ny dx dy cx cy c) (g c))).sum := by
  rw [gatherOne]
  simpa using
    foldl_add_map (fun c => csmul (cellWeight nx ny dx dy cx cy c) (g c)) (cellList nx ny) 0

theorem roundTiesToEven_nonneg (x : ℚ) (h : 0 ≤ x) : 0 ≤ roundTiesToEven x := by
  have hf : (0 : ℤ) ≤ ⌊x⌋ := Int.floor_nonneg.mpr h
  rw [roundTiesToEven]
  split
  · exact hf
  · split
    · omega
    · split
      · exact hf
      · omega

theorem f32pos_nonneg (a : ℚ) (h : 0 ≤ a) : 0 ≤ f32pos a := by
  rw [f32pos]
  apply div_nonneg
  · exact_mod_cast roundTiesToEven_nonneg _ (mul_nonneg h (by positivity))
  · positivity

theorem f32round_nonpos (q : ℚ) (h : q ≤ 0) : f32round q ≤ 0 := by
  rw [f32round]
  by_cases h1 : q < 0
  · rw [if_pos h1]
    have h2 := f32pos_nonneg (-q) (by linarith)
    linarith
  · have h0 : q = 0 := le_antisymm h (not_lt.mp h1)
    rw [if_neg h1, if_pos h0]

theorem exp2FloorAux_of_lt (fuel : ℕ) (a : ℚ) (h : a < 2) :
    exp2FloorAux (fuel + 1) a = 0 := by
  simp [exp2FloorAux, h]

theorem exp2Floor_of_one_le_lt_two (a : ℚ) (h1 : 1 ≤ a) (h2 : a < 2) :
    exp2Floor a = 0 := by
  rw [exp2Floor, if_pos h1, show (1200 : ℕ) = 1199 + 1 by norm_num,
    exp2FloorAux_of_lt _ _ h2]

theorem f32round_of_one_le_lt_two (a : ℚ) (h1 : 1 ≤ a) (h2 : a < 2) :
    f32round a = (roundTiesToEven (a * 8388608) : ℚ) / 8388608 := by
  rw [f32round, if_neg (by linarith), if_neg (by linarith), f32pos,
    exp2Floor_of_one_le_lt_two a h1 h2]
  norm_num

theorem int64AsULong_cast (v : ℤ) (h1 : 0 ≤ v) (h2 : v < 2 ^ 63) :
    ((int64AsULong v : ℤ)) = v := by
  rw [int64AsULong, Int.emod_eq_of_lt h1 (lt_trans h2 (by norm_num)),
    Int.toNat_of_nonneg h1]

theorem gridAllocDims_cast (outdim : List ℤ)
    (h : ∀ v ∈ outdim, 0 ≤ v ∧ v < 2 ^ 63) :
    (gridAllocDims outdim).map (fun n : ℕ => (n : ℤ)) = outdim := by
  induction outdim with
  | nil => rfl
  | cons v t ih =>
      have hv := h v (List.mem_cons_self v t)
      have ht : ∀ w ∈ t, 0 ≤ w ∧ w < 2 ^ 63 :=
        fun w hw => h w (List.mem_cons_of_mem v hw)
      simp only [gridAllocDims, List.map_cons] at ih ⊢
      rw [int64AsULong_cast v hv.1 hv.2, ih ht]

/-- C1: a grid call whose coordinate, data, and weight buffers disagree in
sample count fails with the shape-mismatch precondition error; no output
value is produced, so nothing is silently truncated or zero-padded. -/
theorem grid_shape_mismatch_is_fatal (crds : PyArray ℚ) (data : PyArray Cplx)
    (weights : PyArray ℚ) (outdim : List ℤ) (dx dy : ℚ)
    (h : ¬(sampleCount crds = data.data.length ∧
      data.data.length = weights.data.length)) :
    grid crds data weights outdim dx dy = Except.error GridError.shapeMismatch := by
  simp [grid, grid2, h, Except.map]

theorem grid_shape_mismatch_is_fatal_witness :
    grid ⟨[2, 1], [0, 0]⟩ ⟨[2], [(1, 0), (2, 0)]⟩ ⟨[1], [1]⟩ [2, 2] 1 1 =
      Except.error GridError.shapeMismatch :=
  grid_shape_mismatch_is_fatal _ _ _ _ _ _ (by decide)

/-- C2: the degrid output dimensions are exactly the coordinate buffer
dimensions with the leading dimension axis dropped, and the output holds
one complex value per coordinate sample. -/
theorem degrid_output_dims_drop_leading (crds : PyArray ℚ) (g : PyArray Cplx) :
    (degrid crds g).dims = crds.dims.drop 1 ∧
      (degrid crds g).data.length = (crds.dims.drop 1).prod := by
  constructor
  · rfl
  · simp [degrid, degrid2, sampleCount]

/-- C3: the grid output is allocated with rank equal to the length of
outdim and per-axis sizes exactly the entries of outdim, and every
successful call returns an array carrying exactly those dimensions. -/
theorem grid_output_dims_match_outdim (crds : PyArray ℚ) (data : PyArray Cplx)
    (weights : PyArray ℚ) (outdim : List ℤ) (dx dy : ℚ)
    (h : ∀ v ∈ outdim, 0 ≤ v ∧ v < 2 ^ 63) :
    (gridAllocDims outdim).length = outdim.length ∧
      (gridAllocDims outdim).map (fun n : ℕ => (n : ℤ)) = outdim ∧
      ∀ out, grid crds data weights outdim dx dy = Except.ok out →
        out.dims = gridAllocDims outdim := by
  refine ⟨List.length_map _ _, gridAllocDims_cast outdim h, ?_⟩
  intro out hout
  simp only [grid] at hout
  cases hg : grid2 data crds weights ((gridAllocDims outdim).getD 0 0)
      ((gridAllocDims outdim).getD 1 0) (f32round dx) (f32round dy) with
  | error e => rw [hg] at hout; simp [Except.map] at hout
  | ok buf =>
      rw [hg] at hout
      simp only [Except.map, Except.ok.injEq] at hout
      rw [← hout]

theorem grid_output_dims_match_outdim_witness :
    (gridAllocDims [2, 2]).length = 2 ∧
      (gridAllocDims [2, 2]).map (fun n : ℕ => (n : ℤ)) = [2, 2] :=
  ⟨(grid_output_dims_match_outdim ⟨[2, 1], [0, 0]⟩ ⟨[1], [(1, 0)]⟩ ⟨[1], [1]⟩
      [2, 2] 1 1 (by decide)).1,
   (grid_output_dims_match_outdim ⟨[2, 1], [0, 0]⟩ ⟨[1], [(1, 0)]⟩ ⟨[1], [1]⟩
      [2, 2] 1 1 (by decide)).2.1⟩

/-- C4: a grid call with a non-positive dx or dy spacing fails with a
precondition error instead of computing a result. -/
theorem grid_nonpositive_spacing_is_fatal (crds : PyArray ℚ) (data : PyArray Cplx)
    (weights : PyArray ℚ) (outdim : List ℤ) (dx dy : ℚ)
    (h : dx ≤ 0 ∨ dy ≤ 0) :
    ∃ e, grid crds data weights outdim dx dy = Except.error e := by
  simp only [grid]
  by_cases hs : sampleCount crds = data.data.length ∧
      data.data.length = weights.data.length
  · refine ⟨GridError.invalidSpacing, ?_⟩
    have hneg : ¬(0 < f32round dx ∧ 0 < f32round dy) := by
      rcases h with h | h
      · intro hc
        have h2 := f32round_nonpos dx h
        linarith [hc.1]
      · intro hc
        have h2 := f32round_nonpos dy h
        linarith [hc.2]
    rw [grid2, if_pos hs, if_neg hneg]
    rfl
  · exact ⟨GridError.shapeMismatch, by rw [grid2, if_neg hs]; rfl⟩

theorem grid_nonpositive_spacing_is_fatal_witness :
    ∃ e, grid ⟨[2, 1], [0, 0]⟩ ⟨[1], [(1, 0)]⟩ ⟨[1], [1]⟩ [2, 2] 0 1 =
      Except.error e :=
  grid_nonpositive_spacing_is_fatal _ _ _ _ _ _ (Or.inl le_rfl)

/-- C5 counterexample: an isofov value other than the supported modes zero
and one does not always fail: the binding narrows the long argument to a
32-bit integer at line 73, so the value two to the thirty-second wraps to
mode zero and the call succeeds instead of erroring. -/
theorem rolloff_isofov_wraps_to_supported_mode :
    rolloff ⟨[1], [(1, 0)]⟩ [2, 2] (2 ^ 32) ≠
      Except.error GridError.invalidConfig := by
  have h0 : longAsInt32 4294967296 = 0 := by decide
  simp [rolloff, rolloff2, h0, Except.map]

/-- C5 (amended): a rolloff call whose isofov value, after the narrowing of
the long argument to a 32-bit integer at line 73 of the binding, is not one
of the supported modes zero and one fails with the invalid-configuration
error. -/
theorem rolloff_bad_isofov_is_fatal (data : PyArray Cplx) (outdim : List ℤ)
    (isofov : ℤ) (h0 : longAsInt32 isofov ≠ 0) (h1 : longAsInt32 isofov ≠ 1) :
    rolloff data outdim isofov = Except.error GridError.invalidConfig := by
  have h2 : ¬(longAsInt32 isofov = 0 ∨ longAsInt32 isofov = 1) := by tauto
  simp [rolloff, rolloff2, h2, Except.map]

theorem rolloff_bad_isofov_is_fatal_witness :
    rolloff ⟨[1], [(1, 0)]⟩ [2, 2] 2 = Except.error GridError.invalidConfig :=
  rolloff_bad_isofov_is_fatal _ _ _ (by decide) (by decide)

/-- C6: cells of a kernel neighborhood outside the grid bounds are skipped,
not wrapped and not clamped: no out-of-bounds cell ever accumulates a
value, and a sample whose footprint lies entirely outside the grid
contributes nothing to any cell. -/
theorem grid_skips_out_of_bounds_cells (nx ny : ℕ) (dx dy : ℚ)
    (samples : List Sample) (s : Sample) :
    (∀ c : ℤ × ℤ, ¬inBounds nx ny c → scatterAll nx ny dx dy samples c = 0) ∧
      (farOutside nx ny dx dy s →
        ∀ c : ℤ × ℤ, scatterAll nx ny dx dy [s] c = 0) := by
  constructor
  · intro c hc
    rw [scatterAll_eq_sum]
    apply List.sum_eq_zero
    intro x hx
    rcases List.mem_map.mp hx with ⟨t, _, rfl⟩
    exact contrib_eq_zero_of_notInBounds _ _ _ _ _ _ hc
  · intro hfar c
    rw [scatterAll_single]
    by_cases hc : inBounds nx ny c
    · rw [contrib, cellWeight, if_pos hc]
      rcases hc with ⟨hx0, hxn, hy0, hyn⟩
      rcases hfar with hx | hy
      · have hK : K ((c.1 : ℚ) - mapIdx nx dx s.cx) = 0 := by
          apply K_eq_zero_of_far
          rcases hx with h | h
          · have h1 : (0 : ℚ) ≤ (c.1 : ℚ) := by exact_mod_cast hx0
            calc kernelRadius ≤ (c.1 : ℚ) - mapIdx nx dx s.cx := by linarith
              _ ≤ |(c.1 : ℚ) - mapIdx nx dx s.cx| := le_abs_self _
          · have h1 : (c.1 : ℚ) ≤ (nx : ℚ) - 1 := by
              have h2 : c.1 ≤ (nx : ℤ) - 1 := by omega
              exact_mod_cast h2
            calc kernelRadius ≤ -((c.1 : ℚ) - mapIdx nx dx s.cx) := by linarith
              _ ≤ |(c.1 : ℚ) - mapIdx nx dx s.cx| := neg_le_abs _
        rw [hK, zero_mul, mul_zero, csmul_zero_left]
      · have hK : K ((c.2 : ℚ) - mapIdx ny dy s.cy) = 0 := by
          apply K_eq_zero_of_far
          rcases hy with h | h
          · have h1 : (0 : ℚ) ≤ (c.2 : ℚ) := by exact_mod_cast hy0
            calc kernelRadius ≤ (c.2 : ℚ) - mapIdx ny dy s.cy := by linarith
              _ ≤ |(c.2 : ℚ) - mapIdx ny dy s.cy| := le_abs_self _
          · have h1 : (c.2 : ℚ) ≤ (ny : ℚ) - 1 := by
              have h2 : c.2 ≤ (ny : ℤ) - 1 := by omega
              exact_mod_cast h2
            calc kernelRadius ≤ -((c.2 : ℚ) - mapIdx ny dy s.cy) := by linarith
              _ ≤ |(c.2 : ℚ) - mapIdx ny dy s.cy| := neg_le_abs _
        rw [hK, mul_zero, mul_zero, csmul_zero_left]
    · exact contrib_eq_zero_of_notInBounds _ _ _ _ _ _ hc

theorem grid_skips_out_of_bounds_cells_witness :
    scatterAll 2 2 1 1 [⟨0, 0, (1, 0), 1⟩] (-1, 0) = 0 ∧
      scatterAll 2 2 1 1 [⟨-2, 0, (1, 0), 1⟩] (0, 0) = 0 :=
  ⟨(grid_skips_out_of_bounds_cells 2 2 1 1 [⟨0, 0, (1, 0), 1⟩]
      ⟨0, 0, (1, 0), 1⟩).1 (-1, 0) (by decide),
   (grid_skips_out_of_bounds_cells 2 2 1 1 [] ⟨-2, 0, (1, 0), 1⟩).2
      (by norm_num [farOutside, mapIdx, kernelRadius]) (0, 0)⟩

/-- C7: the degrid result at each coordinate sample is the kernel-weighted
sum over the grid neighborhood only, with no density weight factor; the
operation takes no weight input at all. -/
theorem degrid_is_unweighted_kernel_sum (crds : PyArray ℚ) (g : PyArray Cplx)
    (i : ℕ) (h : i < sampleCount crds) :
    (degrid crds g).data.get? i =
      some (((cellList (g.dims.getD 0 0) (g.dims.getD 1 0)).map (fun c =>
        csmul (cellWeight (g.dims.getD 0 0) (g.dims.getD 1 0) 1 1
          (crds.data.getD i 0) (crds.data.getD (sampleCount crds + i) 0) c)
        (gridFn g c))).sum) := by
  simp only [degrid, degrid2]
  rw [List.get?_map, List.get?_range h, Option.map_some', gatherOne_eq_sum]

theorem degrid_is_unweighted_kernel_sum_witness :
    (degrid ⟨[2, 1], [0, 0]⟩ ⟨[2, 2], [(1, 0), (0, 0), (0, 0), (0, 0)]⟩).data.get? 0 =
      some (((cellList 2 2).map (fun c =>
        csmul (cellWeight 2 2 1 1 0 0 c)
          (gridFn ⟨[2, 2], [(1, 0), (0, 0), (0, 0), (0, 0)]⟩ c))).sum) :=
  degrid_is_unweighted_kernel_sum ⟨[2, 1], [0, 0]⟩
    ⟨[2, 2], [(1, 0), (0, 0), (0, 0), (0, 0)]⟩ 0 (by decide)

/-- C10: the grid binding narrows dx and dy to single precision before
invoking the engine, so two calls whose distinct spacings round to the
same single-precision values produce identical outputs. -/
theorem grid_narrows_spacing_to_float (crds : PyArray ℚ) (data : PyArray Cplx)
    (weights : PyArray ℚ) (outdim : List ℤ) (dx dy dx' dy' : ℚ)
    (_hne : dx ≠ dx' ∨ dy ≠ dy')
    (h1 : f32round dx = f32round dx') (h2 : f32round dy = f32round dy') :
    grid crds data weights outdim dx dy = grid crds data weights outdim dx' dy' := by
  simp only [grid, h1, h2]

theorem grid_narrows_spacing_to_float_witness :
    grid ⟨[2, 1], [0, 0]⟩ ⟨[1], [(1, 0)]⟩ ⟨[1], [1]⟩ [2, 2] 1 1 =
      grid ⟨[2, 1], [0, 0]⟩ ⟨[1], [(1, 0)]⟩ ⟨[1], [1]⟩ [2, 2] (1 + 1 / 2 ^ 30) 1 :=
  grid_narrows_spacing_to_float _ _ _ _ 1 1 (1 + 1 / 2 ^ 30) 1
    (Or.inl (by norm_num))
    (by
      rw [f32round_of_one_le_lt_two 1 le_rfl (by norm_num),
        f32round_of_one_le_lt_two (1 + 1 / 2 ^ 30) (by norm_num) (by norm_num)]
      norm_num [roundTiesToEven])
    rfl

end BniGrid
